import Mathlib

/-!
# LucianMirror — verification of the sprite store, scene extraction and composition core

Shallow embedding of the repository's state-manipulating code:

* the zustand `SpriteStore` of `frontend/src/services/api.ts` (the `useSpriteStore`
  actions `addSprite`, `addSprites`, `removeCharacter`, `updateScene`, `reset`, ...) is
  embedded as explicit state-passing functions on a `SpriteStore` structure;
* the `composite_scene` function of the workflow document is embedded over a pixel-grid
  `Image` type with `Except` for the exceptions PIL raises;
* the backend cognitive components (MPU `query`, HASR `reinforce`, SSP `extract`) are not
  among the source files — only their HTTP callers are — so they are modelled from the
  spec, each marked `Modelled from the spec:` in its doc comment.

JavaScript numbers are modelled as `ℚ`.
-/

set_option autoImplicit false

namespace LucianMirror

/-- The `type` field of a `Sprite`: `'character' | 'action' | 'custom'`. -/
inductive SpriteType where
  | character
  | action
  | custom
deriving DecidableEq, Repr

/-- `physicalFeatures` of a `Character` (all fields optional in the TS interface). -/
structure PhysicalFeatures where
  hair : Option String
  eyes : Option String
  skin : Option String
deriving DecidableEq, Repr

/-- The `Character` interface of `frontend/src/services/api.ts`. -/
structure Character where
  id : String
  name : String
  age : Option Nat
  gender : Option String
  physicalFeatures : Option PhysicalFeatures
  referencePhotos : List String
  style : String
  createdAt : String
deriving DecidableEq, Repr

/-- The `Sprite` interface of `frontend/src/services/api.ts`. -/
structure Sprite where
  id : String
  characterId : String
  pose : String
  emotion : String
  url : String
  thumbnailUrl : Option String
  type : SpriteType
deriving DecidableEq, Repr

/-- The inline position record of a `Scene`'s sprite placement. -/
structure SpritePosition where
  x : ℚ
  y : ℚ
  scale : ℚ
  rotation : ℚ
deriving DecidableEq, Repr

/-- One element of a `Scene`'s `sprites` array. -/
structure ScenePlacement where
  spriteId : String
  position : SpritePosition
deriving DecidableEq, Repr

/-- The `Scene` interface of `frontend/src/services/api.ts`. -/
structure Scene where
  id : String
  text : String
  backgroundUrl : Option String
  sprites : List ScenePlacement
  composedUrl : Option String
deriving DecidableEq, Repr

/-- The `generationApi` union type `'dalle' | 'stable_diffusion' | 'local'`. -/
inductive GenerationApi where
  | dalle
  | stable_diffusion
  | local_
deriving DecidableEq, Repr

/-- The state footprint of the `SpriteStore` zustand store (data fields only; the
actions are embedded below as functions `SpriteStore → ... → SpriteStore`, which is
the semantics of zustand's `set` with an object literal: the named fields are
replaced, all others kept). -/
@[ext]
structure SpriteStore where
  currentCharacter : Option Character
  characters : List Character
  sprites : List Sprite
  selectedSprite : Option Sprite
  scenes : List Scene
  currentScene : Option Scene
  isGenerating : Bool
  generationProgress : ℚ
  generationApi : GenerationApi
deriving DecidableEq, Repr

/-- The initial state of `useSpriteStore`. -/
def initialState : SpriteStore :=
  { currentCharacter := none
    characters := []
    sprites := []
    selectedSprite := none
    scenes := []
    currentScene := none
    isGenerating := false
    generationProgress := 0
    generationApi := GenerationApi.dalle }

/-- `addCharacter`: appends the character and makes it current. -/
def addCharacter (st : SpriteStore) (character : Character) : SpriteStore :=
  { st with
    characters := st.characters ++ [character]
    currentCharacter := some character }

/-- `removeCharacter(id)`: filters the character list by `c.id !== id` and nulls
`currentCharacter` when its `id` equals the removed one
(`state.currentCharacter?.id === id ? null : state.currentCharacter`). -/
def removeCharacter (st : SpriteStore) (id : String) : SpriteStore :=
  { st with
    characters := st.characters.filter (fun c => c.id != id)
    currentCharacter :=
      match st.currentCharacter with
      | some c => if c.id = id then none else some c
      | none => none }

/-- `addSprite`: `sprites: [...state.sprites, sprite]` — a plain append. -/
def addSprite (st : SpriteStore) (sprite : Sprite) : SpriteStore :=
  { st with sprites := st.sprites ++ [sprite] }

/-- `addSprites`: `sprites: [...state.sprites, ...sprites]` — appends all. -/
def addSprites (st : SpriteStore) (sprites : List Sprite) : SpriteStore :=
  { st with sprites := st.sprites ++ sprites }

/-- `removeSprite(id)`: filters the sprite list and nulls a matching selection. -/
def removeSprite (st : SpriteStore) (id : String) : SpriteStore :=
  { st with
    sprites := st.sprites.filter (fun s => s.id != id)
    selectedSprite :=
      match st.selectedSprite with
      | some s => if s.id = id then none else some s
      | none => none }

/-- A `Partial<Scene>` update object: each field either absent (`none`) or present
with a replacement value. The optional TS fields (`backgroundUrl`, `composedUrl`)
carry an `Option String` value when present. -/
structure SceneUpdate where
  id : Option String
  text : Option String
  backgroundUrl : Option (Option String)
  sprites : Option (List ScenePlacement)
  composedUrl : Option (Option String)
deriving DecidableEq, Repr

/-- The object spread `{ ...s, ...updates }`: fields present in `updates` override. -/
def mergeScene (s : Scene) (u : SceneUpdate) : Scene :=
  { id := u.id.getD s.id
    text := u.text.getD s.text
    backgroundUrl := u.backgroundUrl.getD s.backgroundUrl
    sprites := u.sprites.getD s.sprites
    composedUrl := u.composedUrl.getD s.composedUrl }

/-- `addScene`: appends the scene. -/
def addScene (st : SpriteStore) (scene : Scene) : SpriteStore :=
  { st with scenes := st.scenes ++ [scene] }

/-- `updateScene(id, updates)`: maps the spread-merge over scenes with matching id and
applies the same merge to `currentScene` when its id matches
(`state.currentScene?.id === id ? { ...state.currentScene, ...updates } : state.currentScene`). -/
def updateScene (st : SpriteStore) (id : String) (updates : SceneUpdate) : SpriteStore :=
  { st with
    scenes := st.scenes.map (fun s => if s.id = id then mergeScene s updates else s)
    currentScene :=
      match st.currentScene with
      | some cs => if cs.id = id then some (mergeScene cs updates) else some cs
      | none => none }

/-- `reset()`: `set` with every data field of the store listed at its initial value. -/
def reset (_st : SpriteStore) : SpriteStore :=
  { currentCharacter := none
    characters := []
    sprites := []
    selectedSprite := none
    scenes := []
    currentScene := none
    isGenerating := false
    generationProgress := 0
    generationApi := GenerationApi.dalle }

/-- Modelled from the spec: the Asset Store operation
`query(entity_id, pose=None, emotion_or_state=None)` of §4.1 — the backend MPU
implementation is not among the source files (the frontend `getCharacterSprites`
only calls the HTTP endpoint `/api/sprites/{characterId}`). Non-null fields filter,
null fields are wildcards; ordering is most-recently-created first, i.e. the reverse
of insertion order since the store appends sprites in creation order. -/
def querySprites (st : SpriteStore) (entity_id : String)
    (pose : Option String) (emotion_or_state : Option String) : List Sprite :=
  (st.sprites.filter (fun s =>
    s.characterId == entity_id
      && (match pose with
          | none => true
          | some p => s.pose == p)
      && (match emotion_or_state with
          | none => true
          | some e => s.emotion == e))).reverse

/-- Two sprites share the store key of the spec's uniqueness invariant:
same `(entity_id, pose, emotion_or_state)`, i.e. `(characterId, pose, emotion)`. -/
def sameKey (a s : Sprite) : Bool :=
  s.characterId == a.characterId && s.pose == a.pose && s.emotion == a.emotion

/-- Fixture: a sprite for entity `"e"` with key `("e", "standing", "happy")`. -/
def spriteA : Sprite :=
  { id := "a", characterId := "e", pose := "standing", emotion := "happy",
    url := "https://img/a.png", thumbnailUrl := none, type := SpriteType.character }

/-- Fixture: a distinct sprite with the same `(entity_id, pose, emotion)` key as
`spriteA`. -/
def spriteB : Sprite :=
  { id := "b", characterId := "e", pose := "standing", emotion := "happy",
    url := "https://img/b.png", thumbnailUrl := none, type := SpriteType.character }

/-- Fixture: a store already holding `spriteB`. -/
def storeWithB : SpriteStore :=
  { initialState with sprites := [spriteB] }

theorem sameKey_self (a : Sprite) : sameKey a a = true := by
  simp [sameKey]

/-- C1 counterexample: `addSprite` appends, so inserting `spriteA` into a store
already holding `spriteB` — same `(entity_id, pose, emotion_or_state)` key — does
NOT leave exactly one asset for that key. -/
theorem addSprite_duplicates_key :
    ((addSprite storeWithB spriteA).sprites.filter (sameKey spriteA)).length ≠ 1 := by
  decide

/-- C1 (amended): `addSprite` appends the sprite, so inserting an asset increases
the number of stored assets with its `(entity_id, pose, emotion_or_state)` key by
exactly one (duplication, never replacement), and `addSprites` appends all of its
arguments to the sprite list. -/
theorem addSprite_append_count (st : SpriteStore) (a : Sprite) (l : List Sprite) :
    ((addSprite st a).sprites.filter (sameKey a)).length
      = (st.sprites.filter (sameKey a)).length + 1 ∧
    (addSprites st l).sprites = st.sprites ++ l := by
  constructor
  · simp [addSprite, List.filter_append, sameKey_self]
  · rfl

/-- C2 counterexample: with `spriteB` (same key, different asset) already stored,
`put(spriteA)` followed by the exact-key query does not return `[spriteA]`: the
appended store retains both assets and the query returns both. -/
theorem put_then_query_not_singleton :
    querySprites (addSprite storeWithB spriteA) spriteA.characterId
        (some spriteA.pose) (some spriteA.emotion) ≠ [spriteA] := by
  decide

/-- C2 (amended): `put(a)` (i.e. `addSprite`) followed by
`query(a.entity_id, a.pose, a.emotion_or_state)` returns a sequence headed by `a`
followed by the previously matching assets; it equals `[a]` exactly when no asset
with `a`'s key was stored before. -/
theorem put_then_query (st : SpriteStore) (a : Sprite) :
    querySprites (addSprite st a) a.characterId (some a.pose) (some a.emotion)
      = a :: querySprites st a.characterId (some a.pose) (some a.emotion) ∧
    (querySprites st a.characterId (some a.pose) (some a.emotion) = [] →
      querySprites (addSprite st a) a.characterId (some a.pose) (some a.emotion)
        = [a]) := by
  have hhead :
      querySprites (addSprite st a) a.characterId (some a.pose) (some a.emotion)
        = a :: querySprites st a.characterId (some a.pose) (some a.emotion) := by
    simp [querySprites, addSprite, List.filter_append]
  exact ⟨hhead, fun hempty => by rw [hhead, hempty]⟩

/-- C2 witness: on the empty store the amended statement specializes to the spec's
original property: `put(a)` then the exact-key query returns exactly `[a]`. -/
theorem put_then_query_witness :
    querySprites (addSprite initialState spriteA) spriteA.characterId
        (some spriteA.pose) (some spriteA.emotion) = [spriteA] :=
  (put_then_query initialState spriteA).2 (by decide)

/-- Fixture: a character with id `"e"`, the owner of `spriteA`. -/
def charE : Character :=
  { id := "e", name := "Ella", age := some 6, gender := none,
    physicalFeatures := none, referencePhotos := [], style := "watercolor",
    createdAt := "2025-01-01" }

/-- Fixture: a store holding character `"e"` together with one of its sprites. -/
def storeC6 : SpriteStore :=
  { initialState with
    characters := [charE]
    currentCharacter := some charE
    sprites := [spriteA] }

/-- C6 counterexample: `removeCharacter "e"` (the cited `delete`) does not remove
the assets belonging to entity `"e"`: the sprite with `characterId = "e"` is still
stored afterwards. -/
theorem removeCharacter_keeps_sprites :
    ¬ ((removeCharacter storeC6 "e").sprites.filter
        (fun s => s.characterId == "e") = []) := by
  decide

/-- C6 (amended): `removeCharacter(e)` removes exactly the characters whose id is
`e` and is idempotent; it leaves the sprite list unchanged (the entity's sprite
assets are NOT removed — the backend deletion is a separate HTTP call), and
removing an entity with no stored character record and not current changes
nothing. -/
theorem removeCharacter_idempotent (st : SpriteStore) (e : String) :
    removeCharacter (removeCharacter st e) e = removeCharacter st e ∧
    (removeCharacter st e).characters.filter (fun c => c.id == e) = [] ∧
    (removeCharacter st e).sprites = st.sprites ∧
    ((∀ c ∈ st.characters, ¬ c.id = e) →
      st.currentCharacter.map Character.id ≠ some e →
      removeCharacter st e = st) := by
  refine ⟨?_, ?_, rfl, ?_⟩
  · refine SpriteStore.ext ?_ ?_ rfl rfl rfl rfl rfl rfl rfl
    · cases hcc : st.currentCharacter with
      | none => simp [removeCharacter, hcc]
      | some c =>
        by_cases h : c.id = e
        · simp [removeCharacter, hcc, h]
        · simp [removeCharacter, hcc, h]
    · show (st.characters.filter _).filter _ = st.characters.filter _
      rw [List.filter_filter]
      simp
  · rw [List.filter_eq_nil_iff]
    intro c hc
    simp only [removeCharacter, List.mem_filter, bne_iff_ne, ne_eq] at hc
    simp [hc.2]
  · intro hchars hcc
    refine SpriteStore.ext ?_ ?_ rfl rfl rfl rfl rfl rfl rfl
    · cases hc : st.currentCharacter with
      | none => simp [removeCharacter, hc]
      | some c =>
        have : ¬ c.id = e := by
          intro heq
          exact hcc (by simp [hc, heq])
        simp [removeCharacter, hc, this]
    · show st.characters.filter _ = st.characters
      rw [List.filter_eq_self]
      intro c hc
      simp [hchars c hc]

/-- C6 witness: removing an entity that has no stored character record (and is not
the current character) changes nothing. -/
theorem removeCharacter_idempotent_witness :
    removeCharacter storeC6 "zz" = storeC6 :=
  (removeCharacter_idempotent storeC6 "zz").2.2.2 (by decide) (by decide)

/-- C7: querying an entity with no stored assets (including ids never inserted)
returns the empty sequence; being a total function into `List Sprite`, the query
signals no error. Modelled `querySprites` per §4.1 of the spec. -/
theorem query_unknown_entity_empty (st : SpriteStore) (e : String)
    (h : ∀ s ∈ st.sprites, ¬ s.characterId = e) :
    querySprites st e none none = [] := by
  unfold querySprites
  rw [List.reverse_eq_nil_iff, List.filter_eq_nil_iff]
  intro s hs
  simp [h s hs]

/-- C7 witness: the store holding only `spriteB` (entity `"e"`) answers the query
for the never-inserted entity `"unknown"` with the empty sequence. -/
theorem query_unknown_entity_empty_witness :
    querySprites storeWithB "unknown" none none = [] :=
  query_unknown_entity_empty storeWithB "unknown" (by decide)

/-- C8: `removeCharacter(id)` removes exactly the characters with the given id and
keeps every other; `currentCharacter` becomes null exactly when its id is the
removed one, otherwise it is kept; the sprite list (including the removed
character's sprites), scene list, selection and current scene are all unchanged. -/
theorem removeCharacter_frame (st : SpriteStore) (id : String) :
    (removeCharacter st id).characters = st.characters.filter (fun c => c.id != id) ∧
    (∀ c ∈ (removeCharacter st id).characters, c.id ≠ id) ∧
    (∀ c ∈ st.characters, c.id ≠ id → c ∈ (removeCharacter st id).characters) ∧
    ((removeCharacter st id).currentCharacter
        = if st.currentCharacter.map Character.id = some id then none
          else st.currentCharacter) ∧
    (removeCharacter st id).sprites = st.sprites ∧
    (removeCharacter st id).scenes = st.scenes ∧
    (removeCharacter st id).selectedSprite = st.selectedSprite ∧
    (removeCharacter st id).currentScene = st.currentScene := by
  refine ⟨rfl, ?_, ?_, ?_, rfl, rfl, rfl, rfl⟩
  · intro c hc
    simp only [removeCharacter, List.mem_filter, bne_iff_ne, ne_eq] at hc
    exact hc.2
  · intro c hc hne
    simp only [removeCharacter, List.mem_filter, bne_iff_ne, ne_eq]
    exact ⟨hc, hne⟩
  · cases hcc : st.currentCharacter with
    | none => simp [removeCharacter, hcc]
    | some c =>
      by_cases h : c.id = id
      · simp [removeCharacter, hcc, h]
      · simp [removeCharacter, hcc, h]

/-- C8 witness: removing id `"x"` from the fixture store keeps `charE` (id `"e"`)
in the character list. -/
theorem removeCharacter_frame_witness :
    charE ∈ (removeCharacter storeC6 "x").characters :=
  (removeCharacter_frame storeC6 "x").2.2.1 charE (by decide) (by decide)

/-- Clamp a value into the closed interval `[lo, hi]`. -/
def clamp (lo hi x : ℚ) : ℚ := max lo (min hi x)

/-- Modelled from the spec: the HASR weight update
`reinforce(context_key, choice_key, success_score)` of §4.3 — the backend HASR
implementation is not among the source files (the frontend `provideFeedback` only
posts to `/api/learning/feedback`). The new weight is
`clamp(old + learning_rate * (success_score - old), 0, 1)`. -/
def reinforce (learning_rate old success_score : ℚ) : ℚ :=
  clamp 0 1 (old + learning_rate * (success_score - old))

theorem clamp01_nonneg (x : ℚ) : 0 ≤ clamp 0 1 x := le_max_left 0 _

theorem clamp01_le_one (x : ℚ) : clamp 0 1 x ≤ 1 :=
  max_le (by norm_num) (min_le_left 1 x)

theorem reinforce_one_ge (learning_rate w : ℚ) (hlr : 0 ≤ learning_rate)
    (h0 : 0 ≤ w) (h1 : w ≤ 1) : w ≤ reinforce learning_rate w 1 := by
  unfold reinforce clamp
  have hx : w ≤ w + learning_rate * (1 - w) := by nlinarith
  exact le_trans (le_min h1 hx) (le_max_right 0 _)

theorem reinforce_zero_le (learning_rate w : ℚ) (hlr : 0 ≤ learning_rate)
    (h0 : 0 ≤ w) (h1 : w ≤ 1) : reinforce learning_rate w 0 ≤ w := by
  unfold reinforce clamp
  have hx : w + learning_rate * (0 - w) ≤ w := by nlinarith
  exact max_le h0 (le_trans (min_le_right _ _) hx)

theorem reinforce_iterate_bounds (learning_rate old s : ℚ)
    (h0 : 0 ≤ old) (h1 : old ≤ 1) (n : ℕ) :
    0 ≤ (fun w => reinforce learning_rate w s)^[n] old ∧
    (fun w => reinforce learning_rate w s)^[n] old ≤ 1 := by
  induction n with
  | zero => exact ⟨h0, h1⟩
  | succ k _ =>
    rw [Function.iterate_succ_apply']
    exact ⟨clamp01_nonneg _, clamp01_le_one _⟩

/-- C3: `reinforce` replaces the weight with
`clamp(old + learning_rate * (success_score - old), 0, 1)`; the result always lies
in `[0, 1]`; repeated application with `success_score = 1` is non-decreasing and
never exceeds `1`, and repeated application with `success_score = 0` is
non-increasing and never drops below `0`, so the weight stays in `[0, 1]` forever. -/
theorem reinforce_bounded_monotone (learning_rate old : ℚ)
    (hlr0 : 0 ≤ learning_rate) (hlr1 : learning_rate ≤ 1)
    (h0 : 0 ≤ old) (h1 : old ≤ 1) :
    (∀ s, reinforce learning_rate old s
        = clamp 0 1 (old + learning_rate * (s - old))) ∧
    (∀ s, 0 ≤ reinforce learning_rate old s ∧ reinforce learning_rate old s ≤ 1) ∧
    (∀ n : ℕ,
      (fun w => reinforce learning_rate w 1)^[n] old
          ≤ (fun w => reinforce learning_rate w 1)^[n + 1] old ∧
      0 ≤ (fun w => reinforce learning_rate w 1)^[n] old ∧
      (fun w => reinforce learning_rate w 1)^[n] old ≤ 1) ∧
    (∀ n : ℕ,
      (fun w => reinforce learning_rate w 0)^[n + 1] old
          ≤ (fun w => reinforce learning_rate w 0)^[n] old ∧
      0 ≤ (fun w => reinforce learning_rate w 0)^[n] old ∧
      (fun w => reinforce learning_rate w 0)^[n] old ≤ 1) := by
  refine ⟨fun s => rfl, fun s => ⟨clamp01_nonneg _, clamp01_le_one _⟩, ?_, ?_⟩
  · intro n
    obtain ⟨hn0, hn1⟩ := reinforce_iterate_bounds learning_rate old 1 h0 h1 n
    refine ⟨?_, hn0, hn1⟩
    rw [Function.iterate_succ_apply']
    exact reinforce_one_ge learning_rate _ hlr0 hn0 hn1
  · intro n
    obtain ⟨hn0, hn1⟩ := reinforce_iterate_bounds learning_rate old 0 h0 h1 n
    refine ⟨?_, hn0, hn1⟩
    rw [Function.iterate_succ_apply']
    exact reinforce_zero_le learning_rate _ hlr0 hn0 hn1

/-- C3 witness: the statement at the spec's example learning rate `0.2` and a
starting weight `0.5`. -/
theorem reinforce_bounded_monotone_witness :
    (∀ s, reinforce (1 / 5) (1 / 2) s
        = clamp 0 1 (1 / 2 + (1 / 5) * (s - 1 / 2))) ∧
    (∀ s, 0 ≤ reinforce (1 / 5) (1 / 2) s ∧ reinforce (1 / 5) (1 / 2) s ≤ 1) ∧
    (∀ n : ℕ,
      (fun w => reinforce (1 / 5) w 1)^[n] (1 / 2)
          ≤ (fun w => reinforce (1 / 5) w 1)^[n + 1] (1 / 2) ∧
      0 ≤ (fun w => reinforce (1 / 5) w 1)^[n] (1 / 2) ∧
      (fun w => reinforce (1 / 5) w 1)^[n] (1 / 2) ≤ 1) ∧
    (∀ n : ℕ,
      (fun w => reinforce (1 / 5) w 0)^[n + 1] (1 / 2)
          ≤ (fun w => reinforce (1 / 5) w 0)^[n] (1 / 2) ∧
      0 ≤ (fun w => reinforce (1 / 5) w 0)^[n] (1 / 2) ∧
      (fun w => reinforce (1 / 5) w 0)^[n] (1 / 2) ≤ 1) :=
  reinforce_bounded_monotone (1 / 5) (1 / 2)
    (by norm_num) (by norm_num) (by norm_num) (by norm_num)

/-- Modelled from the spec: the fixed emotion lexicon of §4.2 (word → emotion tag);
the SSP implementation is not among the source files. The tags cover the emotion
set the workflow document generates sprites for. -/
def emotionLexicon : List (String × String) :=
  [("happy", "happy"), ("sad", "sad"), ("worried", "worried"),
   ("excited", "excited"), ("scared", "scared"), ("angry", "angry")]

/-- Modelled from the spec: the fixed setting lexicon of §4.2. -/
def settingLexicon : List (String × String) :=
  [("bedroom", "bedroom"), ("park", "park"), ("forest", "forest"),
   ("school", "school"), ("beach", "beach")]

/-- Splits a character stream at spaces, accumulating the current token reversed. -/
def tokenizeAux : List Char → List Char → List String
  | acc, [] => [String.mk acc.reverse]
  | acc, c :: cs =>
    if c = ' ' then String.mk acc.reverse :: tokenizeAux [] cs
    else tokenizeAux (c :: acc) cs

/-- Modelled from the spec: tokenisation of the narrative text (§4.2 step 1),
as whitespace splitting (the behaviour of `text.split(" ")`). -/
def tokenize (text : String) : List String := tokenizeAux [] text.data

/-- First lexicon tag matching a token, scanning tokens by text position
(§4.2 tie-break: the first match by text position wins). -/
def firstLexiconMatch (lexicon : List (String × String)) :
    List String → Option String
  | [] => none
  | t :: ts =>
    match lexicon.lookup t with
    | some tag => some tag
    | none => firstLexiconMatch lexicon ts

/-- Alias-mention scan (§4.2 step 2): walk the tokens in order, record the resolved
entity id of each known alias on its first occurrence. -/
def mentionScan (mapping : List (String × String)) :
    List String → List String → List String
  | acc, [] => acc.reverse
  | acc, t :: ts =>
    match mapping.lookup t with
    | some eid =>
      if eid ∈ acc then mentionScan mapping acc ts
      else mentionScan mapping (eid :: acc) ts
    | none => mentionScan mapping acc ts

/-- The `SceneDescriptor` produced per narrative segment (§3); resolved entity ids
in first-occurrence order. -/
structure SceneDescriptor where
  raw_text : String
  entities_mentioned : List String
  emotion : String
  setting : String
deriving DecidableEq, Repr

/-- Modelled from the spec: `extract(text, entity_name_to_id)` of §4.2 — mention
scan in first-occurrence order, first emotion-lexicon match defaulting to
`"neutral"`, first setting-lexicon match defaulting to `"unspecified"`. -/
def extract (text : String) (entity_name_to_id : List (String × String)) :
    SceneDescriptor :=
  let tokens := tokenize text
  { raw_text := text
    entities_mentioned := mentionScan entity_name_to_id [] tokens
    emotion := (firstLexiconMatch emotionLexicon tokens).getD "neutral"
    setting := (firstLexiconMatch settingLexicon tokens).getD "unspecified" }

theorem firstLexiconMatch_eq_none (lexicon : List (String × String)) :
    ∀ tokens : List String, (∀ t ∈ tokens, lexicon.lookup t = none) →
      firstLexiconMatch lexicon tokens = none
  | [], _ => rfl
  | t :: ts, h => by
    have ht : lexicon.lookup t = none := h t (by simp)
    have hts := firstLexiconMatch_eq_none lexicon ts
      (fun x hx => h x (by simp [hx]))
    simp [firstLexiconMatch, ht, hts]

/-- C4: extracting from `"Lucy felt worried in her dark bedroom"` with alias map
`{"Lucy": "c1"}` mentions exactly `c1`, reads emotion `"worried"` and setting
`"bedroom"`; and on any text none of whose tokens is an emotion-lexicon keyword,
the extracted emotion defaults to `"neutral"`. -/
theorem extract_example_and_neutral_default :
    ((extract "Lucy felt worried in her dark bedroom"
        [("Lucy", "c1")]).entities_mentioned = ["c1"] ∧
     (extract "Lucy felt worried in her dark bedroom"
        [("Lucy", "c1")]).emotion = "worried" ∧
     (extract "Lucy felt worried in her dark bedroom"
        [("Lucy", "c1")]).setting = "bedroom") ∧
    ∀ (text : String) (mapping : List (String × String)),
      (∀ t ∈ tokenize text, emotionLexicon.lookup t = none) →
      (extract text mapping).emotion = "neutral" := by
  constructor
  · exact ⟨by decide, by decide, by decide⟩
  · intro text mapping h
    show (firstLexiconMatch emotionLexicon (tokenize text)).getD "neutral"
        = "neutral"
    rw [firstLexiconMatch_eq_none emotionLexicon (tokenize text) h]
    rfl

/-- C4 witness: the emotion-free sentence `"Lucy sat on the big bed"` extracts the
default emotion `"neutral"`. -/
theorem extract_neutral_default_witness :
    (extract "Lucy sat on the big bed" [("Lucy", "c1")]).emotion = "neutral" :=
  extract_example_and_neutral_default.2 "Lucy sat on the big bed" [("Lucy", "c1")]
    (by decide)

/-- A raster image: a grid of pixel values (0 = transparent, per the alpha-mask
use of `bg.paste(sprite_img, position, sprite_img)`). -/
structure Image where
  pixels : List (List ℕ)
deriving DecidableEq, Repr

/-- `PIL.Image.open` on an image handle: a null handle (`None`) raises. -/
def openImage : Option Image → Except String Image
  | none => Except.error "Image.open: cannot open None"
  | some img => Except.ok img

/-- `bg.paste(sprite_img, position, sprite_img)`: overlays the sprite at the given
upper-left position, the sprite acting as its own alpha mask (pixel `0` is
transparent and keeps the background pixel). -/
def Image.paste (bg sprite : Image) (pos : ℕ × ℕ) : Image :=
  Image.mk <|
    (List.range bg.pixels.length).map fun r =>
      (List.range ((bg.pixels.getD r []).length)).map fun c =>
        let bgp := (bg.pixels.getD r []).getD c 0
        if pos.2 ≤ r ∧ pos.1 ≤ c then
          let sp := (sprite.pixels.getD (r - pos.2) []).getD (c - pos.1) 0
          if sp = 0 then bgp else sp
        else bgp

/-- The `for sprite, position in zip(sprites, positions)` loop body of
`composite_scene`: open each sprite handle and paste it onto the accumulator. -/
def pasteAll : Image → List (Option Image × (ℕ × ℕ)) → Except String Image
  | bg, [] => Except.ok bg
  | bg, (sp, pos) :: rest =>
    match openImage sp with
    | Except.error e => Except.error e
    | Except.ok simg => pasteAll (bg.paste simg pos) rest

/-- The workflow document's `composite_scene(background, sprites, positions)`:
open the background, then paste each `zip`-ped sprite at its position. -/
def composite_scene (background : Option Image) (sprites : List (Option Image))
    (positions : List (ℕ × ℕ)) : Except String Image :=
  match openImage background with
  | Except.error e => Except.error e
  | Except.ok bg => pasteAll bg (sprites.zip positions)

/-- Fixture: a 2×2 background image. -/
def bgImage : Image := Image.mk [[1, 2], [3, 4]]

/-- C5 counterexample: a placement whose sprite is null is NOT silently skipped —
`composite_scene` with a null sprite fails with the `Image.open` error instead of
returning the unchanged background. -/
theorem composite_null_sprite_errors :
    composite_scene (some bgImage) [none] [(0, 0)] ≠ Except.ok bgImage ∧
    composite_scene (some bgImage) [none] [(0, 0)]
      = Except.error "Image.open: cannot open None" := by
  have herr : composite_scene (some bgImage) [none] [(0, 0)]
      = Except.error "Image.open: cannot open None" := rfl
  refine ⟨?_, herr⟩
  rw [herr]
  intro h
  exact Except.noConfusion h

/-- C5 (amended): composing zero placements onto a background is valid and returns
the background unchanged, but a placement whose sprite is null makes
`composite_scene` raise the `Image.open` error rather than being skipped. -/
theorem composite_scene_empty_and_null (bg : Image) :
    (∀ positions : List (ℕ × ℕ),
      composite_scene (some bg) [] positions = Except.ok bg) ∧
    (∀ (rest : List (Option Image)) (p : ℕ × ℕ) (positions : List (ℕ × ℕ)),
      composite_scene (some bg) (none :: rest) (p :: positions)
        = Except.error "Image.open: cannot open None") := by
  constructor
  · intro positions
    rfl
  · intro rest p positions
    rfl

/-- The invariant of C9: a non-null `currentScene` agrees with every scene-list
entry carrying its id. -/
def SceneInv (st : SpriteStore) : Prop :=
  ∀ cs, st.currentScene = some cs → ∀ s ∈ st.scenes, s.id = cs.id → s = cs

/-- Fixture: a scene with id `"a"`. -/
def sceneA : Scene :=
  { id := "a", text := "Lucy plays in the park", backgroundUrl := none,
    sprites := [], composedUrl := none }

/-- Fixture: a scene with id `"b"`, the current scene of `storeC9`. -/
def sceneB : Scene :=
  { id := "b", text := "Lucy is asleep", backgroundUrl := none,
    sprites := [], composedUrl := none }

/-- Fixture: a store holding both scenes with `sceneB` current. -/
def storeC9 : SpriteStore :=
  { initialState with scenes := [sceneA, sceneB], currentScene := some sceneB }

/-- Fixture: an update object that renames the scene id to `"b"`. -/
def updIdToB : SceneUpdate :=
  { id := some "b", text := none, backgroundUrl := none, sprites := none,
    composedUrl := none }

/-- Fixture: an update object touching only the text. -/
def updTextOnly : SceneUpdate :=
  { id := none, text := some "Lucy wakes up", backgroundUrl := none,
    sprites := none, composedUrl := none }

/-- C9 counterexample: an update that changes the scene id can break the
`currentScene`-consistency invariant: `storeC9` satisfies it, but updating scene
`"a"` with `{id: "b"}` leaves a scene-list entry with the current scene's id that
differs from the current scene. -/
theorem updateScene_id_change_breaks_inv :
    SceneInv storeC9 ∧ ¬ SceneInv (updateScene storeC9 "a" updIdToB) := by
  constructor
  · intro cs hcs s hs hid
    have hcseq : cs = sceneB := by
      simp only [storeC9] at hcs
      exact (Option.some.inj hcs).symm
    subst hcseq
    have hall : ∀ s ∈ storeC9.scenes, s.id = sceneB.id → s = sceneB := by decide
    exact hall s hs hid
  · intro h
    have hcs : (updateScene storeC9 "a" updIdToB).currentScene = some sceneB := by
      decide
    have hmem : mergeScene sceneA updIdToB ∈ (updateScene storeC9 "a" updIdToB).scenes := by
      decide
    have hbad := h sceneB hcs (mergeScene sceneA updIdToB) hmem (by decide)
    exact absurd hbad (by decide)

/-- C9 (amended): `updateScene(id, u)` spread-merges `u` into exactly the scenes
with the given id, leaves every other scene unchanged, and applies the same merge
to `currentScene` exactly when its id matches; provided `u` does not change the
scene id (its `id` field absent or equal to the given id), the
`currentScene`-consistency invariant is preserved. -/
theorem updateScene_frame_and_inv (st : SpriteStore) (id : String)
    (u : SceneUpdate) :
    (updateScene st id u).scenes
        = st.scenes.map (fun s => if s.id = id then mergeScene s u else s) ∧
    (∀ s ∈ st.scenes, ¬ s.id = id → s ∈ (updateScene st id u).scenes) ∧
    ((updateScene st id u).currentScene
        = match st.currentScene with
          | some cs => if cs.id = id then some (mergeScene cs u) else some cs
          | none => none) ∧
    ((u.id = none ∨ u.id = some id) → SceneInv st →
      SceneInv (updateScene st id u)) := by
  refine ⟨rfl, ?_, rfl, ?_⟩
  · intro s hs hne
    show s ∈ st.scenes.map (fun s => if s.id = id then mergeScene s u else s)
    exact List.mem_map.mpr ⟨s, hs, by simp [hne]⟩
  · intro hu hinv cs' hcs' s' hs' hid
    have hmergeId : ∀ t : Scene, t.id = id → (mergeScene t u).id = t.id := by
      intro t ht
      rcases hu with h | h
      · simp [mergeScene, h]
      · simp [mergeScene, h, ht]
    have hfid : ∀ t : Scene,
        (if t.id = id then mergeScene t u else t).id = t.id := by
      intro t
      by_cases h : t.id = id
      · rw [if_pos h]; exact hmergeId t h
      · rw [if_neg h]
    cases hc : st.currentScene with
    | none =>
      simp only [updateScene, hc] at hcs'
      exact Option.noConfusion hcs'
    | some cs =>
      simp only [updateScene, hc] at hcs'
      have hcs'' : cs' = if cs.id = id then mergeScene cs u else cs := by
        by_cases h : cs.id = id
        · rw [if_pos h] at hcs' ⊢
          exact (Option.some.inj hcs').symm
        · rw [if_neg h] at hcs' ⊢
          exact (Option.some.inj hcs').symm
      have hs'' : s' ∈ st.scenes.map
          (fun s => if s.id = id then mergeScene s u else s) := hs'
      obtain ⟨s, hsmem, hseq⟩ := List.mem_map.mp hs''
      have hsid : s.id = cs.id := by
        have h1 : s.id = s'.id := by rw [← hseq]; exact (hfid s).symm
        have h2 : cs'.id = cs.id := by rw [hcs'']; exact hfid cs
        rw [h1, hid, h2]
      have hscs : s = cs := hinv cs hc s hsmem hsid
      rw [← hseq, hscs, hcs'']

/-- C9 witness: an id-preserving text update on `storeC9` keeps the invariant. -/
theorem updateScene_inv_witness :
    SceneInv (updateScene storeC9 "a" updTextOnly) :=
  (updateScene_frame_and_inv storeC9 "a" updTextOnly).2.2.2 (Or.inl rfl)
    (by
      intro cs hcs s hs hid
      have hcseq : cs = sceneB := by
        simp only [storeC9] at hcs
        exact (Option.some.inj hcs).symm
      subst hcseq
      have hall : ∀ s ∈ storeC9.scenes, s.id = sceneB.id → s = sceneB := by decide
      exact hall s hs hid)

/-- C10: from every reachable store state, `reset()` produces exactly the initial
state: empty `characters`, `sprites`, `scenes`; null `currentCharacter`,
`selectedSprite`, `currentScene`; `isGenerating = false`; `generationProgress = 0`;
`generationApi = 'dalle'`. -/
theorem reset_yields_initial_state (st : SpriteStore) :
    reset st = initialState ∧
    (reset st).characters = [] ∧
    (reset st).sprites = [] ∧
    (reset st).scenes = [] ∧
    (reset st).currentCharacter = none ∧
    (reset st).selectedSprite = none ∧
    (reset st).currentScene = none ∧
    (reset st).isGenerating = false ∧
    (reset st).generationProgress = 0 ∧
    (reset st).generationApi = GenerationApi.dalle := by
  refine ⟨rfl, rfl, rfl, rfl, rfl, rfl, rfl, rfl, rfl, rfl⟩

end LucianMirror
